import Mathlib

/-!
# Verification of the course-selection recommendation core

Shallow embedding of the scoring and enhancement pipeline of
`course_selection_assistant.py` and `student_data_analyzer.py`.

Python floats are modelled as rationals (`ℚ`).  `round(x, 1)` is modelled as
rounding `10*x` to the nearest integer and dividing by `10`; Python breaks
exact ties to even while `round` here breaks them upward, which is immaterial
for every statement below (both are monotone and fix integer multiples of
`1/10`).  Missing values (pandas `NaN` cells) are modelled with `Option`;
where the source lets a `NaN` flow through float comparisons, the modelled
branch mirrors the value the Python expression actually produces.
-/

set_option linter.unusedVariables false

/-- Python `round(x, 1)`: round to one decimal place. -/
def round1 (q : ℚ) : ℚ := (round (q * 10) : ℤ) / 10

/-- A catalog row after the programs/universities merge, with the columns the
scorer touches.  The six fields inspected by `calculate_confidence` are
`Option`-valued to model missing (`NaN`) cells. -/
structure Row where
  name_program : Option String
  name_university : Option String
  field : String
  level : String
  language : Option String
  country : String
  tuition_per_year : Option ℚ
  ranking_global : Option ℚ
  duration : Option ℚ
deriving DecidableEq

/-- The user preferences collected by `collect_preferences`. -/
structure Prefs where
  field_of_study : String
  degree_level : String
  max_tuition : ℚ
  max_living_expenses : ℚ
  preferred_countries : List String
  language_preference : String
deriving DecidableEq

/-- The per-criterion weights (`self.criteria_weights`), in the dict's
insertion order. -/
structure Weights where
  academic_fit : ℚ
  tuition_cost : ℚ
  living_cost : ℚ
  university_ranking : ℚ
  career_prospects : ℚ
  location : ℚ
  language : ℚ
deriving DecidableEq

/-- Per-criterion importance ratings (the `criteria_importance` dict built in
`collect_preferences`). -/
structure Importance where
  academic_fit : ℚ
  tuition_cost : ℚ
  living_cost : ℚ
  university_ranking : ℚ
  career_prospects : ℚ
  location : ℚ
  language : ℚ
deriving DecidableEq

/-- `total_importance = sum(criteria_importance.values())`. -/
def totalImportance (imp : Importance) : ℚ :=
  imp.academic_fit + imp.tuition_cost + imp.living_cost + imp.university_ranking +
    imp.career_prospects + imp.location + imp.language

/-- The weight-normalisation step of `collect_preferences`:
`self.criteria_weights[criterion] = criteria_importance[criterion] / total_importance`. -/
def normalizeWeights (imp : Importance) : Weights :=
  { academic_fit := imp.academic_fit / totalImportance imp
    tuition_cost := imp.tuition_cost / totalImportance imp
    living_cost := imp.living_cost / totalImportance imp
    university_ranking := imp.university_ranking / totalImportance imp
    career_prospects := imp.career_prospects / totalImportance imp
    location := imp.location / totalImportance imp
    language := imp.language / totalImportance imp }

/-- Sum of the seven criterion weights. -/
def weightsSum (w : Weights) : ℚ :=
  w.academic_fit + w.tuition_cost + w.living_cost + w.university_ranking +
    w.career_prospects + w.location + w.language

/-- The tuition-cost sub-score of `score_programs` on a present cost value:
`1.0 if cost <= 0 else min(1.0, max(0.0, (max_tuition - cost) / max_tuition))`. -/
def tuitionFit (maxT cost : ℚ) : ℚ :=
  if cost ≤ 0 then 1 else min 1 (max 0 ((maxT - cost) / maxT))

/-- C5: for every set of importance ratings with a positive total, the
normalised weights sum to exactly 1. -/
theorem normalize_weights_sum_one (imp : Importance)
    (h : 0 < totalImportance imp) : weightsSum (normalizeWeights imp) = 1 := by
  have hne : totalImportance imp ≠ 0 := ne_of_gt h
  simp only [weightsSum, normalizeWeights, div_add_div_same]
  rw [← totalImportance, div_self hne]

/-- Witness for C5 at the all-ones rating vector. -/
theorem normalize_weights_sum_one_witness :
    weightsSum (normalizeWeights ⟨1, 1, 1, 1, 1, 1, 1⟩) = 1 :=
  normalize_weights_sum_one ⟨1, 1, 1, 1, 1, 1, 1⟩ (by norm_num [totalImportance])

/-- Unconditional clamp form of `tuitionFit` for a positive ceiling. -/
lemma tuitionFit_eq_clamp (M : ℚ) (hM : 0 < M) (c : ℚ) :
    tuitionFit M c = min 1 (max 0 ((M - c) / M)) := by
  unfold tuitionFit
  split_ifs with h
  · have h1 : (1 : ℚ) ≤ (M - c) / M := by
      rw [le_div_iff₀ hM]; linarith
    rw [max_eq_right (by linarith), min_eq_left h1]
  · rfl

/-- C6: with a fixed positive ceiling the cost-fit sub-score is `1` for
non-positive cost, the clamped linear formula otherwise, monotonically
non-increasing in cost, and exactly `0` at or above the ceiling. -/
theorem tuition_fit_spec (M : ℚ) (hM : 0 < M) :
    (∀ c : ℚ, c ≤ 0 → tuitionFit M c = 1) ∧
    (∀ c : ℚ, ¬ c ≤ 0 → tuitionFit M c = min 1 (max 0 ((M - c) / M))) ∧
    (∀ c₁ c₂ : ℚ, c₁ ≤ c₂ → tuitionFit M c₂ ≤ tuitionFit M c₁) ∧
    (∀ c : ℚ, M ≤ c → tuitionFit M c = 0) := by
  refine ⟨fun c hc => by rw [tuitionFit, if_pos hc], fun c hc => by rw [tuitionFit, if_neg hc],
    fun c₁ c₂ h12 => ?_, fun c hc => ?_⟩
  · rw [tuitionFit_eq_clamp M hM, tuitionFit_eq_clamp M hM]
    have : (M - c₂) / M ≤ (M - c₁) / M := by gcongr
    exact min_le_min le_rfl (max_le_max le_rfl this)
  · have hc0 : ¬ c ≤ 0 := by push_neg; linarith
    have hnp : (M - c) / M ≤ 0 := div_nonpos_iff.2 (Or.inr ⟨by linarith, le_of_lt hM⟩)
    rw [tuitionFit, if_neg hc0, max_eq_left hnp, min_eq_right (by norm_num)]

/-- Witness for C6 at ceiling 50000: a free program scores 1, a program at
60000 (above the ceiling) scores 0. -/
theorem tuition_fit_spec_witness :
    tuitionFit 50000 0 = 1 ∧ tuitionFit 50000 60000 = 0 :=
  ⟨(tuition_fit_spec 50000 (by norm_num)).1 0 le_rfl,
   (tuition_fit_spec 50000 (by norm_num)).2.2.2 60000 (by norm_num)⟩

/-! ## The criterion scorer (`score_programs` and its helpers) -/

/-- Python `str(...)` applied to a possibly-missing string cell: `NaN`
stringifies to `"nan"`. -/
def pyStr (o : Option String) : String := o.getD "nan"

/-- Python's `needle in hay` substring test. -/
def substrB (needle hay : String) : Bool := decide (needle.toList <:+: hay.toList)

/-- `extract_keywords`: lowercase, turn `,` and `;` into spaces, split on
whitespace, keep words longer than 2 characters. -/
def extract_keywords (text : String) : List String :=
  (((text.toLower.map (fun c => if c == ',' || c == ';' then ' ' else c)).splitOn " ").filter
      (fun w => w ≠ "")).filter (fun w => 2 < w.length)

/-- `calculate_academic_fit`: fraction of keywords found in
`"{name_program} {field}".lower()`, clamped to 1; default 0.5 with no
keywords. -/
def academicFit (kws : List String) (name_program : Option String) (field : String) : ℚ :=
  if kws = [] then 1/2
  else
    min 1 (((kws.countP (fun k => substrB k ((pyStr name_program ++ " " ++ field).toLower))) : ℚ)
      / kws.length)

/-- The tuition sub-score as written to the score column; a `NaN` cost makes
the source's `min(1.0, max(0.0, (maxT - NaN)/maxT))` evaluate to `0.0`. -/
def tuitionFitOpt (maxT : ℚ) : Option ℚ → ℚ
  | none => 0
  | some c => tuitionFit maxT c

/-- The tiered university-ranking sub-score; a `NaN` rank fails every
comparison in the source's conditional chain and lands on 0.3. -/
def rankingFit : Option ℚ → ℚ
  | none => 3/10
  | some r =>
    if r ≤ 10 then 1 else if r ≤ 50 then 9/10 else if r ≤ 100 then 4/5
    else if r ≤ 200 then 7/10 else if r ≤ 500 then 1/2 else 3/10

/-- The row-level living-cost score given the country's average cost from the
auxiliary countries table, when found. -/
def livingFitAvg (maxLiving : ℚ) : Option (String × ℚ) → ℚ
  | none => 7/10
  | some p => if 0 < maxLiving then min 1 (max 0 ((maxLiving - p.2) / maxLiving)) else 1/2

/-- The living-cost sub-score.  The auxiliary countries table is `none` when
no `countries` table was loaded. -/
def livingFit : Option (List (String × ℚ)) → ℚ → String → ℚ
  | none, _, _ => 7/10
  | some cs, maxLiving, country => livingFitAvg maxLiving (cs.find? (fun p => p.1 == country))

/-- The fixed region lookup table of `is_in_same_region`. -/
def regions : List (String × List String) :=
  [("europe", ["germany", "france", "italy", "spain", "netherlands",
               "belgium", "austria", "switzerland", "uk", "ireland"]),
   ("north_america", ["usa", "united states", "canada", "mexico"]),
   ("asia", ["china", "japan", "south korea", "singapore", "india", "malaysia"]),
   ("oceania", ["australia", "new zealand"])]

/-- `is_in_same_region`: the candidate country is lowercased before lookup,
the preferred countries are compared as entered. -/
def is_in_same_region (country : String) (preferred : List String) : Bool :=
  match (regions.find? (fun rc => rc.2.contains country.toLower)).map (fun rc => rc.1) with
  | none => false
  | some reg => preferred.any (fun p => regions.any (fun rc => rc.2.contains p && rc.1 == reg))

/-- The location sub-score. -/
def locationFit (preferred : List String) (country : String) : ℚ :=
  if preferred = [] then 1/2
  else if country ∈ preferred then 1
  else if is_in_same_region country preferred then 7/10
  else 1/2

/-- The language sub-score; `str(row['language']).lower()` turns a missing
cell into `"nan"`. -/
def languageFit (pref : String) (lang : Option String) : ℚ :=
  if pref = "English only" then (if substrB "english" (pyStr lang).toLower then 1 else 0)
  else if pref = "Any language with English programs" then
    (if substrB "english" (pyStr lang).toLower then 1 else 1/2)
  else 4/5

/-- Number of the six key fields of `calculate_confidence` that are present
and non-missing. -/
def presentCount (r : Row) : Nat :=
  (if r.name_program.isSome then 1 else 0) + (if r.name_university.isSome then 1 else 0) +
  (if r.tuition_per_year.isSome then 1 else 0) + (if r.ranking_global.isSome then 1 else 0) +
  (if r.language.isSome then 1 else 0) + (if r.duration.isSome then 1 else 0)

/-- `calculate_confidence`: `0.7 + (valid_fields / 6) * 0.3`. -/
def calculate_confidence (r : Row) : ℚ := 7/10 + ((presentCount r : ℚ) / 6) * (3/10)

/-- A row together with the columns `score_programs` writes back:
the seven sub-scores, final score and match percentage.  `confidence` and
`student_data_boost` keep the intermediate values the source computes. -/
structure Scored where
  row : Row
  academic_fit_score : ℚ
  tuition_cost_score : ℚ
  living_cost_score : ℚ
  university_ranking_score : ℚ
  career_prospects_score : ℚ
  location_score : ℚ
  language_score : ℚ
  confidence : ℚ
  final_score : ℚ
  match_percentage : ℚ
  student_data_boost : ℚ
deriving DecidableEq

/-- The weighted criterion sum of `score_programs`, iterating the weights
dict in insertion order. -/
def weightedSum (w : Weights) (c : Scored) : ℚ :=
  c.academic_fit_score * w.academic_fit + c.tuition_cost_score * w.tuition_cost +
    c.living_cost_score * w.living_cost + c.university_ranking_score * w.university_ranking +
    c.career_prospects_score * w.career_prospects + c.location_score * w.location +
    c.language_score * w.language

/-- The per-row body of the `score_programs` loop. -/
def scoreRow (countriesAux : Option (List (String × ℚ))) (p : Prefs) (w : Weights)
    (r : Row) : Scored :=
  let academic := academicFit (extract_keywords p.field_of_study) r.name_program r.field
  let tuition := tuitionFitOpt p.max_tuition r.tuition_per_year
  let ranking := rankingFit r.ranking_global
  let living := livingFit countriesAux p.max_living_expenses r.country
  let career : ℚ := 7/10
  let location := locationFit p.preferred_countries r.country
  let language := languageFit p.language_preference r.language
  let conf := calculate_confidence r
  let fs := conf * (academic * w.academic_fit + tuition * w.tuition_cost +
    living * w.living_cost + ranking * w.university_ranking + career * w.career_prospects +
    location * w.location + language * w.language)
  { row := r, academic_fit_score := academic, tuition_cost_score := tuition,
    living_cost_score := living, university_ranking_score := ranking,
    career_prospects_score := career, location_score := location, language_score := language,
    confidence := conf, final_score := fs,
    match_percentage := min 100 (round1 (fs * 100)), student_data_boost := 0 }

/-- Descending order on final scores, the sort key of every
`sort_values(by='final_score', ascending=False)` in the source. -/
def scoreGE (a b : Scored) : Prop := b.final_score ≤ a.final_score

instance : DecidableRel scoreGE :=
  fun a b => inferInstanceAs (Decidable (b.final_score ≤ a.final_score))

instance : IsTotal Scored scoreGE := ⟨fun a b => le_total b.final_score a.final_score⟩

instance : IsTrans Scored scoreGE := ⟨fun _ _ _ hab hbc => le_trans hbc hab⟩

/-- Sort a scored table descending by final score. -/
def sortDesc (l : List Scored) : List Scored := List.insertionSort scoreGE l

/-- `score_programs`: `None` on an empty input, otherwise the scored table
sorted descending by `final_score`. -/
def score_programs (countriesAux : Option (List (String × ℚ))) (p : Prefs) (w : Weights)
    (rows : List Row) : Option (List Scored) :=
  if rows = [] then none
  else some (sortDesc (rows.map (scoreRow countriesAux p w)))

/-! ## Rounding and capping lemmas -/

lemma round1_mono {a b : ℚ} (h : a ≤ b) : round1 a ≤ round1 b := by
  unfold round1
  have h1 : round (a * 10) ≤ round (b * 10) := by
    rw [round_eq, round_eq]; exact Int.floor_mono (by linarith)
  have h2 : ((round (a * 10) : ℤ) : ℚ) ≤ ((round (b * 10) : ℤ) : ℚ) := by exact_mod_cast h1
  linarith

lemma round1_hundred : round1 100 = 100 := by unfold round1; norm_num

/-- The displayed-percentage cap commutes with capping the score at 1:
`min 100 (round1 (fs*100)) = round1 (min 1 fs * 100)`. -/
lemma match_cap (fs : ℚ) : min 100 (round1 (fs * 100)) = round1 (min 1 fs * 100) := by
  rcases le_total fs 1 with h | h
  · rw [min_eq_right h]
    apply min_eq_right
    calc round1 (fs * 100) ≤ round1 100 := round1_mono (by linarith)
    _ = 100 := round1_hundred
  · rw [min_eq_left h, one_mul, round1_hundred]
    apply min_eq_left
    calc (100 : ℚ) = round1 100 := round1_hundred.symm
    _ ≤ round1 (fs * 100) := round1_mono (by linarith)

/-- Every member of the scored table is the scoring of some input row. -/
lemma mem_score_programs {ca : Option (List (String × ℚ))} {p : Prefs} {w : Weights}
    {rows : List Row} {c : Scored} (hc : c ∈ (score_programs ca p w rows).getD []) :
    ∃ r ∈ rows, c = scoreRow ca p w r := by
  unfold score_programs at hc
  split_ifs at hc with h
  · simp at hc
  · simp only [Option.getD_some, sortDesc, List.mem_insertionSort, List.mem_map] at hc
    obtain ⟨r, hr, hrc⟩ := hc
    exact ⟨r, hr, hrc.symm⟩

/-- C1: every scored candidate's final score is confidence times the weighted
criterion sum, its match percentage is the capped rounded percentage, is at
most 100, and agrees with rounding the score capped at 1; the table is sorted
descending by final score. -/
theorem score_programs_aggregation (ca : Option (List (String × ℚ))) (p : Prefs) (w : Weights)
    (rows : List Row) :
    (∀ c ∈ (score_programs ca p w rows).getD [],
      c.final_score = c.confidence * weightedSum w c ∧
      c.match_percentage = min 100 (round1 (c.final_score * 100)) ∧
      c.match_percentage ≤ 100 ∧
      c.match_percentage = round1 (min 1 c.final_score * 100)) ∧
    List.Sorted scoreGE ((score_programs ca p w rows).getD []) := by
  constructor
  · intro c hc
    obtain ⟨r, _, rfl⟩ := mem_score_programs hc
    refine ⟨rfl, rfl, min_le_left _ _, ?_⟩
    exact match_cap _
  · unfold score_programs
    split_ifs with h
    · exact List.sorted_nil
    · exact List.sorted_insertionSort scoreGE _

/-! ## C2: sub-score and confidence bounds -/

lemma clamp01_bounds (x : ℚ) : 0 ≤ min 1 (max 0 x) ∧ min 1 (max 0 x) ≤ 1 :=
  ⟨le_min (by norm_num) (le_max_left 0 x), min_le_left _ _⟩

lemma academicFit_bounds (kws : List String) (np : Option String) (f : String) :
    0 ≤ academicFit kws np f ∧ academicFit kws np f ≤ 1 := by
  unfold academicFit
  split_ifs with h
  · norm_num
  · refine ⟨le_min (by norm_num) (div_nonneg (by positivity) (by positivity)), min_le_left _ _⟩

lemma tuitionFitOpt_bounds (maxT : ℚ) (cost : Option ℚ) :
    0 ≤ tuitionFitOpt maxT cost ∧ tuitionFitOpt maxT cost ≤ 1 := by
  cases cost with
  | none => simp [tuitionFitOpt]
  | some c =>
    simp only [tuitionFitOpt, tuitionFit]
    split_ifs with h
    · norm_num
    · exact clamp01_bounds _

lemma rankingFit_bounds (ranking : Option ℚ) :
    0 ≤ rankingFit ranking ∧ rankingFit ranking ≤ 1 := by
  cases ranking with
  | none => norm_num [rankingFit]
  | some r => simp only [rankingFit]; split_ifs <;> norm_num

lemma livingFitAvg_bounds (maxL : ℚ) (o : Option (String × ℚ)) :
    0 ≤ livingFitAvg maxL o ∧ livingFitAvg maxL o ≤ 1 := by
  cases o with
  | none => norm_num [livingFitAvg]
  | some pr =>
    simp only [livingFitAvg]
    split_ifs with h
    · exact clamp01_bounds _
    · norm_num

lemma livingFit_bounds (ca : Option (List (String × ℚ))) (maxL : ℚ) (country : String) :
    0 ≤ livingFit ca maxL country ∧ livingFit ca maxL country ≤ 1 := by
  cases ca with
  | none => norm_num [livingFit]
  | some cs => exact livingFitAvg_bounds maxL _

lemma locationFit_bounds (preferred : List String) (country : String) :
    0 ≤ locationFit preferred country ∧ locationFit preferred country ≤ 1 := by
  unfold locationFit; split_ifs <;> norm_num

lemma languageFit_bounds (pref : String) (lang : Option String) :
    0 ≤ languageFit pref lang ∧ languageFit pref lang ≤ 1 := by
  unfold languageFit; split_ifs <;> norm_num

lemma presentCount_le_six (r : Row) : presentCount r ≤ 6 := by
  unfold presentCount
  have h1 : (if r.name_program.isSome then 1 else 0) ≤ 1 := by split <;> norm_num
  have h2 : (if r.name_university.isSome then 1 else 0) ≤ 1 := by split <;> norm_num
  have h3 : (if r.tuition_per_year.isSome then 1 else 0) ≤ 1 := by split <;> norm_num
  have h4 : (if r.ranking_global.isSome then 1 else 0) ≤ 1 := by split <;> norm_num
  have h5 : (if r.language.isSome then 1 else 0) ≤ 1 := by split <;> norm_num
  have h6 : (if r.duration.isSome then 1 else 0) ≤ 1 := by split <;> norm_num
  omega

lemma confidence_bounds (r : Row) :
    7/10 ≤ calculate_confidence r ∧ calculate_confidence r ≤ 1 := by
  unfold calculate_confidence
  have h0 : (0 : ℚ) ≤ (presentCount r : ℚ) := by positivity
  have h6 : ((presentCount r : ℚ)) ≤ 6 := by exact_mod_cast presentCount_le_six r
  constructor
  · nlinarith
  · nlinarith

/-- C2: every sub-score of every scored candidate lies in `[0,1]`, and the
confidence factor is `0.7 + 0.3 * (present_count / 6)`, hence lies in
`[0.7, 1]`. -/
theorem score_programs_bounds (ca : Option (List (String × ℚ))) (p : Prefs) (w : Weights)
    (rows : List Row) :
    ∀ c ∈ (score_programs ca p w rows).getD [],
      (0 ≤ c.academic_fit_score ∧ c.academic_fit_score ≤ 1) ∧
      (0 ≤ c.tuition_cost_score ∧ c.tuition_cost_score ≤ 1) ∧
      (0 ≤ c.university_ranking_score ∧ c.university_ranking_score ≤ 1) ∧
      (0 ≤ c.living_cost_score ∧ c.living_cost_score ≤ 1) ∧
      (0 ≤ c.career_prospects_score ∧ c.career_prospects_score ≤ 1) ∧
      (0 ≤ c.location_score ∧ c.location_score ≤ 1) ∧
      (0 ≤ c.language_score ∧ c.language_score ≤ 1) ∧
      c.confidence = 7/10 + (3/10) * ((presentCount c.row : ℚ) / 6) ∧
      (7/10 ≤ c.confidence ∧ c.confidence ≤ 1) := by
  intro c hc
  obtain ⟨r, _, rfl⟩ := mem_score_programs hc
  refine ⟨academicFit_bounds _ _ _, tuitionFitOpt_bounds _ _, rankingFit_bounds _,
    livingFit_bounds _ _ _, by norm_num [scoreRow], locationFit_bounds _ _,
    languageFit_bounds _ _, ?_, confidence_bounds r⟩
  show calculate_confidence r = 7/10 + (3/10) * ((presentCount r : ℚ) / 6)
  unfold calculate_confidence; ring

/-! ## Shared concrete sample inputs for witnesses -/

/-- A minimal catalog row with every optional cell missing. -/
def r0 : Row := ⟨none, none, "", "", none, "", none, none, none⟩

/-- A minimal preference set. -/
def p0 : Prefs := ⟨"", "", 1, 1, [], ""⟩

/-- All-zero criterion weights. -/
def w0 : Weights := ⟨0, 0, 0, 0, 0, 0, 0⟩

lemma mem_singleton_scored :
    scoreRow none p0 w0 r0 ∈ (score_programs none p0 w0 [r0]).getD [] := by
  simp [score_programs, sortDesc, List.insertionSort, List.orderedInsert]

/-- Witness for C1 at a concrete singleton table. -/
theorem score_programs_aggregation_witness :
    (scoreRow none p0 w0 r0).final_score =
        (scoreRow none p0 w0 r0).confidence * weightedSum w0 (scoreRow none p0 w0 r0) ∧
      (scoreRow none p0 w0 r0).match_percentage =
        min 100 (round1 ((scoreRow none p0 w0 r0).final_score * 100)) ∧
      (scoreRow none p0 w0 r0).match_percentage ≤ 100 ∧
      (scoreRow none p0 w0 r0).match_percentage =
        round1 (min 1 (scoreRow none p0 w0 r0).final_score * 100) :=
  (score_programs_aggregation none p0 w0 [r0]).1 _ mem_singleton_scored

/-- Witness for C2 at a concrete singleton table. -/
theorem score_programs_bounds_witness :
    (0 ≤ (scoreRow none p0 w0 r0).academic_fit_score ∧
        (scoreRow none p0 w0 r0).academic_fit_score ≤ 1) ∧
      (0 ≤ (scoreRow none p0 w0 r0).tuition_cost_score ∧
        (scoreRow none p0 w0 r0).tuition_cost_score ≤ 1) ∧
      (0 ≤ (scoreRow none p0 w0 r0).university_ranking_score ∧
        (scoreRow none p0 w0 r0).university_ranking_score ≤ 1) ∧
      (0 ≤ (scoreRow none p0 w0 r0).living_cost_score ∧
        (scoreRow none p0 w0 r0).living_cost_score ≤ 1) ∧
      (0 ≤ (scoreRow none p0 w0 r0).career_prospects_score ∧
        (scoreRow none p0 w0 r0).career_prospects_score ≤ 1) ∧
      (0 ≤ (scoreRow none p0 w0 r0).location_score ∧
        (scoreRow none p0 w0 r0).location_score ≤ 1) ∧
      (0 ≤ (scoreRow none p0 w0 r0).language_score ∧
        (scoreRow none p0 w0 r0).language_score ≤ 1) ∧
      (scoreRow none p0 w0 r0).confidence =
        7/10 + (3/10) * ((presentCount (scoreRow none p0 w0 r0).row : ℚ) / 6) ∧
      (7/10 ≤ (scoreRow none p0 w0 r0).confidence ∧ (scoreRow none p0 w0 r0).confidence ≤ 1) :=
  score_programs_bounds none p0 w0 [r0] _ mem_singleton_scored

/-! ## C3: the diversity reranker (`apply_diversity_boosting`) -/

/-- Add a diversity bonus to a candidate and recompute the capped match
percentage, as the loop body of `apply_diversity_boosting` does. -/
def boosted (c : Scored) (bC bU bF : ℚ) : Scored :=
  { c with final_score := c.final_score + (bC + bU + bF),
           match_percentage := min 100 (round1 ((c.final_score + (bC + bU + bF)) * 100)) }

/-- The single pass of `apply_diversity_boosting`, threading the three "seen"
sets (here lists; the source `add`s a value only when absent, which has the
same membership semantics as always consing). -/
def divPass (cs : List String) (us : List (Option String)) (fl : List String) :
    List Scored → List Scored
  | [] => []
  | c :: rest =>
      boosted c (if c.row.country ∈ cs then 0 else 3/100)
        (if c.row.name_university ∈ us then 0 else 2/100)
        (if c.row.field ∈ fl then 0 else 1/100) ::
      divPass (c.row.country :: cs) (c.row.name_university :: us) (c.row.field :: fl) rest

/-- `apply_diversity_boosting`: empty (or `None`) input is returned as is,
otherwise one boosting pass followed by a re-sort. -/
def apply_diversity_boosting (l : List Scored) : List Scored :=
  if l.isEmpty then l else sortDesc (divPass [] [] [] l)

/-- The country bonus candidate `ci` (sitting at index `i`) receives:
`0.03` exactly when its country has not occurred strictly earlier. -/
def bonusC (l : List Scored) (i : Nat) (ci : Scored) : ℚ :=
  if ci.row.country ∈ (l.take i).map (fun c => c.row.country) then 0 else 3/100

/-- The university bonus at index `i`: `0.02` on first occurrence. -/
def bonusU (l : List Scored) (i : Nat) (ci : Scored) : ℚ :=
  if ci.row.name_university ∈ (l.take i).map (fun c => c.row.name_university) then 0 else 2/100

/-- The field bonus at index `i`: `0.01` on first occurrence. -/
def bonusF (l : List Scored) (i : Nat) (ci : Scored) : ℚ :=
  if ci.row.field ∈ (l.take i).map (fun c => c.row.field) then 0 else 1/100

lemma mem_swap_head {α : Type} (x a : α) (cs T : List α) :
    x ∈ (a :: cs) ++ T ↔ x ∈ cs ++ a :: T := by
  simp only [List.mem_append, List.mem_cons]
  tauto

/-- Position-wise characterisation of the boosting pass, generalised over the
initial "seen" sets. -/
lemma divPass_getElem? (l : List Scored) :
    ∀ (cs : List String) (us : List (Option String)) (fl : List String) (i : Nat),
      (divPass cs us fl l)[i]? = (l[i]?).map (fun ci =>
        boosted ci
          (if ci.row.country ∈ cs ++ (l.take i).map (fun c => c.row.country) then 0 else 3/100)
          (if ci.row.name_university ∈
              us ++ (l.take i).map (fun c => c.row.name_university) then 0 else 2/100)
          (if ci.row.field ∈ fl ++ (l.take i).map (fun c => c.row.field) then 0 else 1/100)) := by
  induction l with
  | nil => intro cs us fl i; simp [divPass]
  | cons c rest ih =>
    intro cs us fl i
    cases i with
    | zero => simp [divPass]
    | succ n =>
      have hrec := ih (c.row.country :: cs) (c.row.name_university :: us) (c.row.field :: fl) n
      simp only [divPass, List.getElem?_cons_succ, List.take_succ_cons, List.map_cons]
      rw [hrec]
      cases h' : rest[n]? with
      | none => simp
      | some cj =>
        simp only [Option.map_some']
        congr 1
        rw [if_congr (mem_swap_head _ _ _ _) rfl rfl,
            if_congr (mem_swap_head _ _ _ _) rfl rfl,
            if_congr (mem_swap_head _ _ _ _) rfl rfl]

/-- C3: the diversity reranker is one pass over the table; each candidate at
index `i` gains exactly the first-occurrence bonuses (0.03 country, 0.02
provider, 0.01 field); no final score decreases and rows are unchanged; the
match percentage is recomputed with the capped formula; a repeated
country/provider/field value never receives its bonus twice; and the result
is re-sorted descending by final score. -/
theorem apply_diversity_boosting_spec (l : List Scored) :
    (∀ i : Nat, (divPass [] [] [] l)[i]? = (l[i]?).map (fun ci =>
        boosted ci (bonusC l i ci) (bonusU l i ci) (bonusF l i ci))) ∧
    (∀ i : Nat, ∀ ci di : Scored, l[i]? = some ci → (divPass [] [] [] l)[i]? = some di →
        ci.final_score ≤ di.final_score ∧ di.row = ci.row ∧
        di.final_score = ci.final_score + (bonusC l i ci + bonusU l i ci + bonusF l i ci) ∧
        di.match_percentage = min 100 (round1 (di.final_score * 100))) ∧
    (∀ i j : Nat, ∀ ci cj : Scored, i < j → l[i]? = some ci → l[j]? = some cj →
        (ci.row.country = cj.row.country → bonusC l j cj = 0) ∧
        (ci.row.name_university = cj.row.name_university → bonusU l j cj = 0) ∧
        (ci.row.field = cj.row.field → bonusF l j cj = 0)) ∧
    apply_diversity_boosting l = (if l.isEmpty then l else sortDesc (divPass [] [] [] l)) ∧
    List.Sorted scoreGE (apply_diversity_boosting l) := by
  have hchar : ∀ i : Nat, (divPass [] [] [] l)[i]? = (l[i]?).map (fun ci =>
      boosted ci (bonusC l i ci) (bonusU l i ci) (bonusF l i ci)) := by
    intro i
    have := divPass_getElem? l [] [] [] i
    simpa [bonusC, bonusU, bonusF] using this
  have hfirst : ∀ (j i : Nat) (ci cj : Scored), i < j → l[i]? = some ci → l[j]? = some cj →
      ci ∈ l.take j := by
    intro j i ci cj hij hi hj
    have : (l.take j)[i]? = some ci := by
      rw [List.getElem?_take, if_pos hij]; exact hi
    exact List.getElem?_mem this
  refine ⟨hchar, ?_, ?_, rfl, ?_⟩
  · intro i ci di hi hdi
    rw [hchar i, hi] at hdi
    simp only [Option.map_some'] at hdi
    have hbC : 0 ≤ bonusC l i ci := by unfold bonusC; split_ifs <;> norm_num
    have hbU : 0 ≤ bonusU l i ci := by unfold bonusU; split_ifs <;> norm_num
    have hbF : 0 ≤ bonusF l i ci := by unfold bonusF; split_ifs <;> norm_num
    obtain rfl := Option.some.inj hdi
    refine ⟨?_, rfl, rfl, rfl⟩
    show ci.final_score ≤ ci.final_score + (bonusC l i ci + bonusU l i ci + bonusF l i ci)
    linarith
  · intro i j ci cj hij hi hj
    have hmem := hfirst j i ci cj hij hi hj
    refine ⟨fun hcc => ?_, fun hcu => ?_, fun hcf => ?_⟩
    · unfold bonusC
      have : cj.row.country ∈ (l.take j).map (fun c => c.row.country) := by
        rw [← hcc]; exact List.mem_map_of_mem _ hmem
      rw [if_pos this]
    · unfold bonusU
      have : cj.row.name_university ∈ (l.take j).map (fun c => c.row.name_university) := by
        rw [← hcu]; exact List.mem_map_of_mem _ hmem
      rw [if_pos this]
    · unfold bonusF
      have : cj.row.field ∈ (l.take j).map (fun c => c.row.field) := by
        rw [← hcf]; exact List.mem_map_of_mem _ hmem
      rw [if_pos this]
  · unfold apply_diversity_boosting
    split_ifs with h
    · rcases List.isEmpty_iff.mp h with rfl
      exact List.sorted_nil
    · exact List.sorted_insertionSort scoreGE _

/-- A sample scored candidate in country `"X"`. -/
def sA : Scored :=
  ⟨⟨some "P1", some "U1", "F1", "master", some "English", "X", some 1000, some 10, some 2⟩,
   1/2, 1, 7/10, 1, 7/10, 1/2, 1, 1, 1/2, 50, 0⟩

/-- A second sample scored candidate, same country as `sA`. -/
def sB : Scored :=
  ⟨⟨some "P2", some "U2", "F2", "master", some "English", "X", some 2000, some 20, some 2⟩,
   1/2, 1, 7/10, 1, 7/10, 1/2, 1, 1, 1/4, 25, 0⟩

/-- Witness for C3 on a concrete two-element table with a repeated country:
the pass characterisation holds at index 1, the repeated country gets no
second bonus, and the output is sorted. -/
theorem apply_diversity_boosting_spec_witness :
    ((divPass [] [] [] [sA, sB])[1]? = ([sA, sB][1]?).map (fun ci =>
        boosted ci (bonusC [sA, sB] 1 ci) (bonusU [sA, sB] 1 ci) (bonusF [sA, sB] 1 ci))) ∧
    bonusC [sA, sB] 1 sB = 0 ∧
    List.Sorted scoreGE (apply_diversity_boosting [sA, sB]) :=
  ⟨(apply_diversity_boosting_spec [sA, sB]).1 1,
   ((apply_diversity_boosting_spec [sA, sB]).2.2.1 0 1 sA sB (by norm_num) rfl rfl).1 rfl,
   (apply_diversity_boosting_spec [sA, sB]).2.2.2.2⟩

/-! ## C4: the cohort enhancer (`enhance_recommendations`) -/

/-- The per-candidate popularity boost of `enhance_recommendations`:
`destination_counts.get(country, 0) / max(1, total_destinations) * 0.05`,
where `ns` lists the destination countries of the similar students. -/
def countryBoost (ns : List String) (c : String) : ℚ :=
  ((ns.count c : ℚ) / max 1 (ns.length : ℚ)) * (5/100)

/-- The per-candidate update of the enhancement loop: record the boost, add
it to the final score and recompute the capped match percentage. -/
def enhanceCand (ns : List String) (c : Scored) : Scored :=
  { c with student_data_boost := countryBoost ns c.row.country,
           final_score := c.final_score + countryBoost ns c.row.country,
           match_percentage :=
             min 100 (round1 ((c.final_score + countryBoost ns c.row.country) * 100)) }

/-- `enhance_recommendations`: `sim` is the result of `find_similar_students`
(`none` when no cohort model/index is available, otherwise the destination
countries of the similar records).  Empty input, a missing index or an empty
neighbour set return the input unmodified; otherwise every candidate is
boosted and the table is re-sorted. -/
def enhance_recommendations (sim : Option (List String)) (recs : List Scored) : List Scored :=
  if recs.isEmpty then recs
  else
    match sim with
    | none => recs
    | some [] => recs
    | some ns => sortDesc (recs.map (enhanceCand ns))

/-- C4: pass-through cases leave the table untouched; each boost is
`count/total * 0.05`, lies in `[0, 0.05]` and is added onto the candidate's
final score (with the capped match percentage recomputed); with a nonempty
table and neighbour set the result is the boosted table re-sorted. -/
theorem enhance_recommendations_spec (sim : Option (List String)) (ns : List String)
    (recs : List Scored) :
    enhance_recommendations none recs = recs ∧
    enhance_recommendations (some []) recs = recs ∧
    (∀ c : Scored, 0 ≤ countryBoost ns c.row.country ∧ countryBoost ns c.row.country ≤ 5/100) ∧
    (ns ≠ [] → ∀ c : Scored,
      countryBoost ns c.row.country = ((ns.count c.row.country : ℚ) / (ns.length : ℚ)) * (5/100)) ∧
    List.Forall₂ (fun a b =>
        b.row = a.row ∧
        b.student_data_boost = countryBoost ns a.row.country ∧
        b.final_score = a.final_score + countryBoost ns a.row.country ∧
        b.match_percentage = min 100 (round1 (b.final_score * 100)))
      recs (recs.map (enhanceCand ns)) ∧
    (recs ≠ [] → enhance_recommendations (some ns) recs =
      (match ns with
       | [] => recs
       | _ => sortDesc (recs.map (enhanceCand ns)))) := by
  have hmax : (0 : ℚ) < max 1 (ns.length : ℚ) := lt_of_lt_of_le one_pos (le_max_left _ _)
  refine ⟨?_, ?_, ?_, ?_, ?_, ?_⟩
  · unfold enhance_recommendations; split_ifs <;> rfl
  · unfold enhance_recommendations; split_ifs <;> rfl
  · intro c
    constructor
    · apply mul_nonneg (div_nonneg (by positivity) (le_of_lt hmax)) (by norm_num)
    · have hcount : ((ns.count c.row.country : ℚ)) ≤ max 1 (ns.length : ℚ) := by
        calc ((ns.count c.row.country : ℚ)) ≤ (ns.length : ℚ) := by
              have h := List.count_le_length (a := c.row.country) (l := ns)
              exact_mod_cast h
        _ ≤ max 1 (ns.length : ℚ) := le_max_right _ _
      have hdiv : ((ns.count c.row.country : ℚ)) / max 1 (ns.length : ℚ) ≤ 1 :=
        (div_le_one hmax).2 hcount
      calc countryBoost ns c.row.country ≤ 1 * (5/100) := by
            unfold countryBoost
            apply mul_le_mul_of_nonneg_right hdiv (by norm_num)
      _ = 5/100 := by norm_num
  · intro hne c
    have h1 : (1 : ℚ) ≤ (ns.length : ℚ) := by
      have : 1 ≤ ns.length := List.length_pos.2 hne
      exact_mod_cast this
    unfold countryBoost
    rw [max_eq_right h1]
  · rw [List.forall₂_map_right_iff]
    rw [List.forall₂_same]
    intro a _
    exact ⟨rfl, rfl, rfl, rfl⟩
  · intro hrecs
    unfold enhance_recommendations
    rw [if_neg (by simpa [List.isEmpty_iff] using hrecs)]
    cases ns <;> rfl

/-- Witness for C4: concrete neighbour list and a one-element table. -/
theorem enhance_recommendations_spec_witness :
    enhance_recommendations none [sA] = [sA] ∧
    countryBoost ["X", "Y", "X"] sA.row.country =
      ((List.count sA.row.country ["X", "Y", "X"] : ℚ) / ((["X", "Y", "X"] : List String).length : ℚ)) *
        (5/100) ∧
    enhance_recommendations (some ["X", "Y", "X"]) [sA] =
      sortDesc ([sA].map (enhanceCand ["X", "Y", "X"])) :=
  ⟨(enhance_recommendations_spec none ["X", "Y", "X"] [sA]).1,
   (enhance_recommendations_spec none ["X", "Y", "X"] [sA]).2.2.2.1 (by simp) sA,
   (enhance_recommendations_spec (some ["X", "Y", "X"]) ["X", "Y", "X"] [sA]).2.2.2.2.2
     (by simp)⟩

/-! ## C7: the cohort-index query normalisation (`find_similar_students`) -/

/-- Column mean, as pandas `Series.mean()` computes it. -/
def colMean (xs : List ℚ) : ℚ := xs.sum / xs.length

/-- The square of pandas `Series.std()` (sample variance, `ddof = 1`). -/
def colVarS (xs : List ℚ) : ℚ :=
  ((xs.map (fun x => (x - colMean xs)^2)).sum) / ((xs.length : ℚ) - 1)

/-- The training-side z-score normalisation of `build_recommendation_model`:
`(features - features.mean()) / features.std()`, with `s` standing for the
column's standard deviation (so `s^2 = colVarS xs`). -/
def normalizeCol (xs : List ℚ) (s : ℚ) : List ℚ := xs.map (fun x => (x - colMean xs) / s)

/-- One coordinate of the query vector: the preference value when supplied,
otherwise `self.student_data[col].mean()` (the original column's mean). -/
def queryVal (pref : Option ℚ) (xs : List ℚ) : ℚ := pref.getD (colMean xs)

/-- What `find_similar_students` actually computes for one query coordinate:
it normalises with `self.normalized_features.mean()` and
`self.normalized_features.std()` — the statistics of the ALREADY-normalised
matrix — so `sN` stands for the standard deviation of the normalised column
(`sN^2 = colVarS (normalizeCol xs s)`). -/
def queryNormCode (xs : List ℚ) (s sN q : ℚ) : ℚ := (q - colMean (normalizeCol xs s)) / sN

/-- Modelled from the spec: z-score normalisation of the query coordinate
with the ORIGINAL training column's stored mean and standard deviation. -/
def queryNormSpec (xs : List ℚ) (s q : ℚ) : ℚ := (q - colMean xs) / s

/-- C7 (code bug): on the training column `[0, 2, 4]` (mean 2, std 2, whose
normalised form `[-1, 0, 1]` has mean 0 and std 1) and the query value 4, the
code's normalisation returns the raw value 4, while normalising with the
original column's mean/std — what the spec and the source's own comment
describe — gives 1. -/
theorem find_similar_query_norm_bug :
    colMean [0, 2, 4] = 2 ∧ colVarS [0, 2, 4] = 2^2 ∧
    normalizeCol [0, 2, 4] 2 = [-1, 0, 1] ∧
    colMean (normalizeCol [0, 2, 4] 2) = 0 ∧ colVarS (normalizeCol [0, 2, 4] 2) = 1^2 ∧
    queryVal none [0, 2, 4] = 2 ∧
    queryNormCode [0, 2, 4] 2 1 4 = 4 ∧
    queryNormSpec [0, 2, 4] 2 4 = 1 ∧
    queryNormCode [0, 2, 4] 2 1 4 ≠ queryNormSpec [0, 2, 4] 2 4 := by
  norm_num [colMean, colVarS, normalizeCol, queryVal, queryNormCode, queryNormSpec,
    List.sum_cons, List.sum_nil, List.map_cons, List.map_nil]

/-! ## C8: empty filter results are valid (`filter_programs`) -/

/-- `filter_programs`: the successive hard-constraint filters on the merged
table (field substring, degree level, tuition ceiling, preferred countries,
strict language).  A missing (`NaN`) cell never matches a filter and is
dropped, as the corresponding pandas comparison is falsy. -/
def filter_programs (p : Prefs) (rows : List Row) : List Row :=
  let fl := p.field_of_study.toLower
  let s1 := if p.field_of_study = "" then rows else
    rows.filter (fun r => substrB fl r.field.toLower ||
      (match r.name_program with
       | none => false
       | some s => substrB fl s.toLower))
  let s2 := if p.degree_level = "" then s1 else
    s1.filter (fun r => r.level.toLower == p.degree_level.toLower)
  let s3 := s2.filter (fun r =>
    match r.tuition_per_year with
    | none => false
    | some t => t ≤ p.max_tuition)
  let s4 := if p.preferred_countries = [] then s3 else
    s3.filter (fun r =>
      (p.preferred_countries.map (fun c => c.toLower)).contains r.country.toLower)
  if p.language_preference = "English only" then
    s4.filter (fun r =>
      match r.language with
      | none => false
      | some s => s.toLower == "english")
  else s4

/-- C8: the scorer signals an empty filtered table exactly by returning
`None` — never by failing — and an empty filter result is an ordinary value:
the sample row `r0`, whose tuition cell is missing, is filtered out, giving a
well-defined empty table. -/
theorem filter_empty_valid (ca : Option (List (String × ℚ))) (p : Prefs) (w : Weights)
    (rows : List Row) :
    (score_programs ca p w (filter_programs p rows) = none ↔ filter_programs p rows = []) ∧
    filter_programs p0 [r0] = [] := by
  constructor
  · unfold score_programs
    split_ifs with h
    · simp [h]
    · simp [h]
  · rfl

/-! ## C9: the concrete two-candidate scenario -/

/-- Candidate A of the scenario: cost 20000, rank 5, country "X". -/
def rowA : Row :=
  ⟨some "A", some "UA", "CS", "master", some "English", "X", some 20000, some 5, some 2⟩

/-- Candidate B of the scenario: cost 60000, rank 300, country "Y". -/
def rowB : Row :=
  ⟨some "B", some "UB", "CS", "master", some "English", "Y", some 60000, some 300, some 2⟩

/-- Scenario preferences: tuition ceiling 50000. -/
def p9 : Prefs := ⟨"", "", 50000, 1000, [], ""⟩

/-- Scenario weights: cost 0.5, reputation 0.5, everything else 0. -/
def w9 : Weights := ⟨0, 1/2, 0, 1/2, 0, 0, 0⟩

lemma scoreRowA_fields :
    (scoreRow none p9 w9 rowA).tuition_cost_score = 3/5 ∧
    (scoreRow none p9 w9 rowA).university_ranking_score = 1 ∧
    (scoreRow none p9 w9 rowA).final_score = 4/5 ∧
    (scoreRow none p9 w9 rowA).row = rowA := by
  refine ⟨?_, ?_, ?_, rfl⟩
  · show tuitionFitOpt p9.max_tuition rowA.tuition_per_year = 3/5
    norm_num [p9, rowA, tuitionFitOpt, tuitionFit, min_def, max_def]
  · show rankingFit rowA.ranking_global = 1
    norm_num [rowA, rankingFit]
  · show calculate_confidence rowA *
        (academicFit (extract_keywords p9.field_of_study) rowA.name_program rowA.field *
            w9.academic_fit +
          tuitionFitOpt p9.max_tuition rowA.tuition_per_year * w9.tuition_cost +
          livingFit none p9.max_living_expenses rowA.country * w9.living_cost +
          rankingFit rowA.ranking_global * w9.university_ranking +
          7/10 * w9.career_prospects +
          locationFit p9.preferred_countries rowA.country * w9.location +
          languageFit p9.language_preference rowA.language * w9.language) = 4/5
    have hconf : calculate_confidence rowA = 1 := by
      norm_num [calculate_confidence, presentCount, rowA]
    have htui : tuitionFitOpt p9.max_tuition rowA.tuition_per_year = 3/5 := by
      norm_num [p9, rowA, tuitionFitOpt, tuitionFit, min_def, max_def]
    have hrank : rankingFit rowA.ranking_global = 1 := by
      norm_num [rowA, rankingFit]
    rw [hconf, htui, hrank]
    show (1 : ℚ) * (_ * w9.academic_fit + 3/5 * w9.tuition_cost + _ * w9.living_cost +
      1 * w9.university_ranking + 7/10 * w9.career_prospects + _ * w9.location +
      _ * w9.language) = 4/5
    norm_num [w9]

lemma scoreRowB_fields :
    (scoreRow none p9 w9 rowB).tuition_cost_score = 0 ∧
    (scoreRow none p9 w9 rowB).university_ranking_score = 1/2 ∧
    (scoreRow none p9 w9 rowB).final_score = 1/4 ∧
    (scoreRow none p9 w9 rowB).row = rowB := by
  refine ⟨?_, ?_, ?_, rfl⟩
  · show tuitionFitOpt p9.max_tuition rowB.tuition_per_year = 0
    norm_num [p9, rowB, tuitionFitOpt, tuitionFit, min_def, max_def]
  · show rankingFit rowB.ranking_global = 1/2
    norm_num [rowB, rankingFit]
  · show calculate_confidence rowB *
        (academicFit (extract_keywords p9.field_of_study) rowB.name_program rowB.field *
            w9.academic_fit +
          tuitionFitOpt p9.max_tuition rowB.tuition_per_year * w9.tuition_cost +
          livingFit none p9.max_living_expenses rowB.country * w9.living_cost +
          rankingFit rowB.ranking_global * w9.university_ranking +
          7/10 * w9.career_prospects +
          locationFit p9.preferred_countries rowB.country * w9.location +
          languageFit p9.language_preference rowB.language * w9.language) = 1/4
    have hconf : calculate_confidence rowB = 1 := by
      norm_num [calculate_confidence, presentCount, rowB]
    have htui : tuitionFitOpt p9.max_tuition rowB.tuition_per_year = 0 := by
      norm_num [p9, rowB, tuitionFitOpt, tuitionFit, min_def, max_def]
    have hrank : rankingFit rowB.ranking_global = 1/2 := by
      norm_num [rowB, rankingFit]
    rw [hconf, htui, hrank]
    show (1 : ℚ) * (_ * w9.academic_fit + 0 * w9.tuition_cost + _ * w9.living_cost +
      1/2 * w9.university_ranking + 7/10 * w9.career_prospects + _ * w9.location +
      _ * w9.language) = 1/4
    norm_num [w9]

/-- C9 counterexample: in the stated scenario the code gives
`cost_fit(A) = (50000 - 20000) / 50000 = 0.6`, not the claimed `1.0`. -/
theorem concrete_ab_counterexample :
    (scoreRow none p9 w9 rowA).tuition_cost_score = 3/5 ∧
    (scoreRow none p9 w9 rowA).tuition_cost_score ≠ 1 := by
  have h := scoreRowA_fields.1
  exact ⟨h, by rw [h]; norm_num⟩

/-- C9 (amended): in the scenario, `cost_fit(A) = 0.6`, `cost_fit(B) = 0`,
`reputation_fit(A) = 1`, `reputation_fit(B) = 0.5`, the final scores are
`0.8` and `0.25`, so A outranks B and is listed first. -/
theorem concrete_ab_amended :
    ((score_programs none p9 w9 [rowA, rowB]).getD []).map
        (fun c => (c.row, c.tuition_cost_score, c.university_ranking_score, c.final_score)) =
      [(rowA, 3/5, 1, 4/5), (rowB, 0, 1/2, 1/4)] ∧
    (1/4 : ℚ) < 4/5 := by
  constructor
  · have hge : scoreGE (scoreRow none p9 w9 rowA) (scoreRow none p9 w9 rowB) := by
      show (scoreRow none p9 w9 rowB).final_score ≤ (scoreRow none p9 w9 rowA).final_score
      rw [scoreRowA_fields.2.2.1, scoreRowB_fields.2.2.1]
      norm_num
    have hsort : (score_programs none p9 w9 [rowA, rowB]).getD [] =
        [scoreRow none p9 w9 rowA, scoreRow none p9 w9 rowB] := by
      unfold score_programs
      rw [if_neg (by simp)]
      show List.insertionSort scoreGE [scoreRow none p9 w9 rowA, scoreRow none p9 w9 rowB] = _
      simp only [List.insertionSort, List.orderedInsert]
      rw [if_pos hge]
    rw [hsort]
    simp only [List.map_cons, List.map_nil]
    rw [scoreRowA_fields.1, scoreRowA_fields.2.1, scoreRowA_fields.2.2.1,
      scoreRowA_fields.2.2.2, scoreRowB_fields.1, scoreRowB_fields.2.1,
      scoreRowB_fields.2.2.1, scoreRowB_fields.2.2.2]
  · norm_num

/-! ## C10: exception safety of the two re-ranking stages

Both `apply_diversity_boosting` and `enhance_recommendations` wrap their loop
bodies in `try/except Exception` and fall back to returning their input.  To
state this, the stages are re-modelled over untyped tables (rows as
association lists of named cells, as pandas rows are), with the body's
possible runtime failures (a missing column, a non-numeric `final_score`)
made explicit in an `Except` channel. -/

/-- An untyped table cell. -/
inductive Cell where
  | s : String → Cell
  | q : ℚ → Cell
deriving DecidableEq

/-- An untyped row: named cells. -/
abbrev RawRow := List (String × Cell)

/-- `row[k]`: raises (`Except.error`) on a missing column, like a `KeyError`. -/
def lookupCell (r : RawRow) (k : String) : Except String Cell :=
  match r.find? (fun kv => kv.1 == k) with
  | some kv => Except.ok kv.2
  | none => Except.error k

/-- Read a numeric cell; a missing column or a non-numeric value raises. -/
def lookupQ (r : RawRow) (k : String) : Except String ℚ :=
  match lookupCell r k with
  | Except.ok (Cell.q v) => Except.ok v
  | Except.ok (Cell.s _) => Except.error k
  | Except.error e => Except.error e

/-- `df.at[idx, k] = v`: overwrite the cell, or append the column. -/
def setCell (r : RawRow) (k : String) (v : Cell) : RawRow :=
  if r.any (fun kv => kv.1 == k) then r.map (fun kv => if kv.1 == k then (k, v) else kv)
  else r ++ [(k, v)]

/-- The `final_score` sort key of a raw row (every row has one by the time
the sorts run; `0` is a don't-care default keeping the key total). -/
def keyFS (r : RawRow) : ℚ :=
  match lookupQ r "final_score" with
  | Except.ok v => v
  | Except.error _ => 0

/-- Descending final-score order on raw rows. -/
def rawGE (a b : RawRow) : Prop := keyFS b ≤ keyFS a

instance : DecidableRel rawGE := fun a b => inferInstanceAs (Decidable (keyFS b ≤ keyFS a))

instance : IsTotal RawRow rawGE := ⟨fun a b => le_total (keyFS b) (keyFS a)⟩

instance : IsTrans RawRow rawGE := ⟨fun _ _ _ hab hbc => le_trans hbc hab⟩

/-- The loop body inside `apply_diversity_boosting`'s `try`. -/
def divBodyRows (seenC seenU seenF : List Cell) : List RawRow → Except String (List RawRow)
  | [] => Except.ok []
  | r :: rest => do
      let country ← lookupCell r "country"
      let univ ← lookupCell r "name_university"
      let fld ← lookupCell r "field"
      let fs ← lookupQ r "final_score"
      let boost : ℚ := (if country ∈ seenC then 0 else 3/100) +
        (if univ ∈ seenU then 0 else 2/100) + (if fld ∈ seenF then 0 else 1/100)
      let r' := setCell (setCell r "final_score" (Cell.q (fs + boost))) "match_percentage"
        (Cell.q (min 100 (round1 ((fs + boost) * 100))))
      let rest' ← divBodyRows (country :: seenC) (univ :: seenU) (fld :: seenF) rest
      Except.ok (r' :: rest')

/-- Everything inside `apply_diversity_boosting`'s `try`: boost, then re-sort. -/
def divBody (t : List RawRow) : Except String (List RawRow) := do
  let t' ← divBodyRows [] [] [] t
  Except.ok (List.insertionSort rawGE t')

/-- `apply_diversity_boosting` over raw tables: empty input short-circuits;
any error in the body is caught and the input returned unchanged. -/
def apply_diversity_boosting_raw (t : List RawRow) : List RawRow :=
  if t.isEmpty then t
  else
    match divBody t with
    | Except.ok t' => t'
    | Except.error _ => t

/-- The per-row body inside `enhance_recommendations`'s `try`: the country
lookup can raise; the `final_score` and `match_percentage` updates are
guarded by column-presence checks, but `+=` on a non-numeric score raises. -/
def enhanceRowRaw (ns : List String) (r : RawRow) : Except String RawRow := do
  let country ← lookupCell r "country"
  let cname : ℚ := match country with
    | Cell.s v => (ns.count v : ℚ)
    | Cell.q _ => 0
  let boost : ℚ := cname / max 1 (ns.length : ℚ) * (5/100)
  match lookupCell r "final_score" with
  | Except.error _ => Except.ok r
  | Except.ok (Cell.s _) => Except.error "final_score"
  | Except.ok (Cell.q fs) =>
    let r1 := setCell (setCell r "student_data_boost" (Cell.q boost)) "final_score"
      (Cell.q (fs + boost))
    match lookupCell r "match_percentage" with
    | Except.error _ => Except.ok r1
    | Except.ok _ => Except.ok (setCell r1 "match_percentage"
        (Cell.q (min 100 (round1 ((fs + boost) * 100)))))

/-- Everything inside `enhance_recommendations`'s `try` after the neighbour
query: boost every row, then re-sort. -/
def enhanceBody (ns : List String) (t : List RawRow) : Except String (List RawRow) := do
  let t' ← t.mapM (enhanceRowRaw ns)
  Except.ok (List.insertionSort rawGE t')

/-- `enhance_recommendations` over raw tables: empty input, a missing cohort
index (`none`) or no neighbours short-circuit; any error in the body is
caught and the input returned unchanged. -/
def enhance_recommendations_raw (sim : Option (List String)) (t : List RawRow) : List RawRow :=
  if t.isEmpty then t
  else
    match sim with
    | none => t
    | some [] => t
    | some ns =>
      match enhanceBody ns t with
      | Except.ok t' => t'
      | Except.error _ => t

/-- C10: whenever the body of either re-ranking stage fails, the stage
returns its input table unchanged (and, being a total function, never
aborts the pipeline or leaves a partial result). -/
theorem stages_exception_safe (t : List RawRow) (ns : List String) :
    (∀ e : String, divBody t = Except.error e → apply_diversity_boosting_raw t = t) ∧
    (∀ e : String, enhanceBody ns t = Except.error e →
      enhance_recommendations_raw (some ns) t = t) := by
  constructor
  · intro e he
    unfold apply_diversity_boosting_raw
    split_ifs with h
    · rfl
    · rw [he]
  · intro e he
    unfold enhance_recommendations_raw
    split_ifs with h
    · rfl
    · cases ns with
      | nil => rfl
      | cons a l =>
        show (match enhanceBody (a :: l) t with
          | Except.ok t' => t'
          | Except.error _ => t) = t
        rw [he]

/-- Witness for C10: a row lacking the `country` column makes both bodies
fail, and both stages hand back the input table unchanged. -/
theorem stages_exception_safe_witness :
    apply_diversity_boosting_raw [[("final_score", Cell.q 1)]] = [[("final_score", Cell.q 1)]] ∧
    enhance_recommendations_raw (some ["X"]) [[("final_score", Cell.q 1)]] =
      [[("final_score", Cell.q 1)]] :=
  ⟨(stages_exception_safe [[("final_score", Cell.q 1)]] ["X"]).1 "country" rfl,
   (stages_exception_safe [[("final_score", Cell.q 1)]] ["X"]).2 "country" rfl⟩
